import Mathlib

/-!
# Verification of the scanner-server document capture core

Shallow embedding of `src/backend/api/scanner.py`, `src/backend/utils/pdf.py`
and `src/backend/utils/ocr.py`.  The filesystem is modelled as an explicit
state (directories plus files living in directories); every external tool
invocation (the `hp-scan` command, `ocrmypdf`, PIL decode/encode, the Discord
webhook) is modelled by an explicit outcome parameter describing what the
external collaborator did, so that every control-flow decision the Python
code makes on those outcomes is reproduced faithfully.
-/

namespace ScannerServer

/-! ## Decimal formatting

Embedding of Python's `f"page_{page_num:03d}.jpg"` (scanner.py line 143):
the decimal digits of a number, left-padded with the character `'0'` to a
minimum width of three, between the literal pieces `page_` and `.jpg`.
-/

/-- The character for a decimal digit, `'0'`–`'9'` for `d < 10`. -/
def digitChar (d : Nat) : Char := Char.ofNat (48 + d)

/-- Numeric value of a decimal digit character. -/
def charVal (c : Char) : Nat := c.toNat - 48

/-- Fuel-driven most-significant-first decimal digit list. -/
def decDigitsAux : Nat → Nat → List Nat
  | 0, _ => []
  | fuel + 1, n => if n < 10 then [n] else decDigitsAux fuel (n / 10) ++ [n % 10]

/-- Decimal digits of `n`, most significant first (`n + 1` is always enough fuel). -/
def decDigits (n : Nat) : List Nat := decDigitsAux (n + 1) n

/-- One step of reading a decimal digit string back into a number. -/
def unpadStep (a : Nat) (c : Char) : Nat := 10 * a + charVal c

/-- Read a digit string back into a number (left inverse of the padding). -/
def unpad (l : List Char) : Nat := l.foldl unpadStep 0

/-- Python `f"{n:03d}"`: decimal digits left-padded with zeros to width 3. -/
def pad3 (n : Nat) : List Char :=
  List.replicate (3 - (decDigits n).length) '0' ++ (decDigits n).map digitChar

/-- The page file name the code produces for page index `n`
(scanner.py line 143: `page_{page_num:03d}.jpg`). -/
def pageChars (n : Nat) : List Char := "page_".data ++ (pad3 n ++ ".jpg".data)

/-- The page file name as a string. -/
def pageName (n : Nat) : String := String.mk (pageChars n)

/-! ## List-prefix, list-suffix and lexicographic string comparison

`isLeadOf`/`isTailOf` embed the shell-glob pattern `page_*.jpg` used with
`session_dir.glob("page_*.jpg")` (scanner.py lines 139, 176, 206): a file
name matches exactly when it begins with `page_` and ends with `.jpg`.
`lexLt` embeds Python's string `<` (code-point lexicographic order), the
order used by `sorted(...)` on the page paths of one directory.
-/

/-- `isLeadOf p l` holds when `p` is an initial segment of `l`. -/
def isLeadOf {α : Type} [DecidableEq α] : List α → List α → Bool
  | [], _ => true
  | _ :: _, [] => false
  | a :: as, b :: bs => decide (a = b) && isLeadOf as bs

/-- `isTailOf p l` holds when `p` is a final segment of `l`. -/
def isTailOf {α : Type} [DecidableEq α] (p l : List α) : Bool :=
  isLeadOf p.reverse l.reverse

/-- Python string `<`: lexicographic comparison by code point. -/
def lexLt : List Char → List Char → Bool
  | _, [] => false
  | [], _ :: _ => true
  | a :: as, b :: bs =>
    decide (a.toNat < b.toNat) || (decide (a.toNat = b.toNat) && lexLt as bs)

/-- Glob match for `page_*.jpg` (the only glob pattern the session store uses). -/
def isPageName (n : String) : Bool :=
  isLeadOf "page_".data n.data && isTailOf ".jpg".data n.data

/-! ## PIL image model (pdf.py lines 34–42 and 89–100)

Images carry their PIL mode string and pixel data.  Only the operations the
repository performs on images are modelled: compositing onto a white
background via `paste` with the alpha band as mask, and `convert("RGB")`.
-/

structure Pixel where
  r : Nat
  g : Nat
  b : Nat
  a : Nat
deriving DecidableEq, Repr

structure PILImage where
  mode : String
  pixels : List Pixel
deriving DecidableEq, Repr

/-- PIL `Image.new("RGB", size, (255, 255, 255))` followed by
`rgb_image.paste(image, mask=image.split()[3])` (pdf.py lines 38–39 and
96–97): per-pixel alpha blend of the image over opaque white. -/
def compositeOnWhite (img : PILImage) : PILImage :=
  PILImage.mk "RGB"
    (img.pixels.map fun p =>
      Pixel.mk ((p.r * p.a + 255 * (255 - p.a)) / 255)
               ((p.g * p.a + 255 * (255 - p.a)) / 255)
               ((p.b * p.a + 255 * (255 - p.a)) / 255) 255)

/-- Modelled from PIL's documented semantics of `Image.convert("RGB")`
(pdf.py lines 42 and 100): channel data is carried over and an alpha
channel, when present, is dropped without any compositing. -/
def pilConvertRGB (img : PILImage) : PILImage :=
  PILImage.mk "RGB" (img.pixels.map fun p => Pixel.mk p.r p.g p.b 255)

/-- pdf.py lines 36–42 (and the textually identical lines 94–100): an RGBA
image is composited onto an opaque white background, any other non-RGB mode
is converted to RGB, and an RGB image passes through unchanged. -/
def normalizeToRGB (img : PILImage) : PILImage :=
  if img.mode = "RGBA" then compositeOnWhite img
  else if img.mode ≠ "RGB" then pilConvertRGB img
  else img

/-- The PIL image modes that carry an alpha channel (PIL documentation). -/
def hasAlphaMode (m : String) : Bool :=
  decide (m = "RGBA" ∨ m = "RGBa" ∨ m = "LA" ∨ m = "La" ∨ m = "PA")

/-! ## Filesystem model

Files live inside a directory and have a name and opaque content; content
is either raw bytes (scanned JPEGs, `ocrmypdf` output) or a PDF assembled
from a list of raster pages.
-/

/-- A directory path, as the list of its components. -/
abbrev Dirp := List String

inductive FileData where
  | bytes (s : String)
  | pdfPages (ps : List PILImage)
deriving DecidableEq, Repr

structure FEntry where
  dir : Dirp
  name : String
  content : FileData
deriving DecidableEq, Repr

structure FS where
  dirs : List Dirp
  files : List FEntry
deriving DecidableEq, Repr

def FS.dirExists (fs : FS) (d : Dirp) : Bool := decide (d ∈ fs.dirs)

def FS.fileExists (fs : FS) (d : Dirp) (n : String) : Bool :=
  fs.files.any fun e => decide (e.dir = d ∧ e.name = n)

def FS.readFile (fs : FS) (d : Dirp) (n : String) : Option FileData :=
  (fs.files.find? fun e => decide (e.dir = d ∧ e.name = n)).map FEntry.content

def FS.writeFile (fs : FS) (d : Dirp) (n : String) (c : FileData) : FS :=
  FS.mk fs.dirs
    (FEntry.mk d n c :: fs.files.filter fun e => !decide (e.dir = d ∧ e.name = n))

def FS.removeFile (fs : FS) (d : Dirp) (n : String) : FS :=
  FS.mk fs.dirs (fs.files.filter fun e => !decide (e.dir = d ∧ e.name = n))

/-- `os.makedirs(..., exist_ok=True)`: never fails; a no-op when the
directory already exists (creation of missing parents is not modelled; no
claim depends on it). -/
def FS.makedirs (fs : FS) (d : Dirp) : FS :=
  if d ∈ fs.dirs then fs else FS.mk (d :: fs.dirs) fs.files

/-- `os.replace(src, dst)`: atomically move `src` over `dst`. -/
def FS.replaceFile (fs : FS) (sd : Dirp) (sn : String) (dd : Dirp) (dn : String) : FS :=
  match fs.readFile sd sn with
  | some c => (fs.removeFile sd sn).writeFile dd dn c
  | none => fs

/-- `shutil.rmtree(d)`: delete the directory and everything below it. -/
def FS.rmtree (fs : FS) (d : Dirp) : FS :=
  FS.mk (fs.dirs.filter fun d2 => !isLeadOf d d2)
        (fs.files.filter fun e => !isLeadOf d e.dir)

/-- `session_dir.glob("page_*.jpg")`-style listing: the names of the files
of directory `d` that match `pat` (in storage order; callers that need an
order sort the result, as the Python code does). -/
def FS.glob (fs : FS) (d : Dirp) (pat : String → Bool) : List String :=
  fs.files.filterMap fun e => if e.dir = d ∧ pat e.name = true then some e.name else none

/-- Insertion into a list sorted by Python string `<`. -/
def insertName (x : String) : List String → List String
  | [] => [x]
  | y :: ys => if lexLt x.data y.data = true then x :: y :: ys else y :: insertName x ys

/-- Python `sorted(...)` over the file names of one directory (sorting the
`Path` objects of one directory compares their final components). -/
def sortNames : List String → List String
  | [] => []
  | x :: xs => insertName x (sortNames xs)

/-! ## ocr.py -/

/-- Rendering of a file path, for the error strings that embed one. -/
def locString (d : Dirp) (n : String) : String :=
  String.intercalate "/" d ++ "/" ++ n

/-- How one `subprocess.run` of the external OCR tool ended. -/
inductive ToolStatus where
  | finished (exitCode : Nat)
  | timedOut
  | raised (msg : String)
deriving DecidableEq, Repr

/-- Observable behaviour of one external `ocrmypdf` invocation: how the
`subprocess.run` call ended, whether the tool produced its output file, and
what content it wrote there. -/
structure OcrRun where
  status : ToolStatus
  wrote : Bool
  output : FileData
deriving DecidableEq, Repr

/-- The `{"success": ..., "error": ...}` dictionaries the utility functions
return. -/
structure OpResult where
  success : Bool
  error : Option String
deriving DecidableEq, Repr

/-- ocr.py lines 10–84, `process_image`: run OCR on an image, producing a
searchable PDF at the output path.  Succeeds exactly when the tool exits 0
and the output file exists. -/
def process_image (fs : FS) (imgDir : Dirp) (imgName : String)
    (outDir : Dirp) (outName : String) (run : OcrRun) : OpResult × FS :=
  if fs.fileExists imgDir imgName = false then
    (OpResult.mk false (some ("Input image not found: " ++ locString imgDir imgName)), fs)
  else
    let fs1 := if run.wrote then fs.writeFile outDir outName run.output else fs
    match run.status with
    | ToolStatus.finished c =>
        if c = 0 ∧ fs1.fileExists outDir outName = true then
          (OpResult.mk true none, fs1)
        else
          (OpResult.mk false (some "OCR processing failed"), fs1)
    | ToolStatus.timedOut =>
        (OpResult.mk false (some "OCR processing timed out"), fs1)
    | ToolStatus.raised msg =>
        (OpResult.mk false (some msg), fs1)

/-- The temporary sibling path `f"{pdf_path}.temp.pdf"` (ocr.py line 106). -/
def tempName (n : String) : String := n ++ ".temp.pdf"

/-- ocr.py lines 87–173, `make_pdf_searchable`: OCR an existing PDF in
place.  The tool writes to the temporary sibling path only; on exit 0 with
the temporary file present, `os.replace` moves it over the original; on
every other path the temporary file is removed if present. -/
def make_pdf_searchable (fs : FS) (pdfDir : Dirp) (pdfName : String) (run : OcrRun) :
    OpResult × FS :=
  if fs.fileExists pdfDir pdfName = false then
    (OpResult.mk false (some ("PDF file not found: " ++ locString pdfDir pdfName)), fs)
  else
    let fs1 := if run.wrote then fs.writeFile pdfDir (tempName pdfName) run.output else fs
    match run.status with
    | ToolStatus.finished c =>
        if c = 0 ∧ fs1.fileExists pdfDir (tempName pdfName) = true then
          (OpResult.mk true none, fs1.replaceFile pdfDir (tempName pdfName) pdfDir pdfName)
        else
          (OpResult.mk false (some "Failed to make PDF searchable"),
            if fs1.fileExists pdfDir (tempName pdfName) = true
            then fs1.removeFile pdfDir (tempName pdfName) else fs1)
    | ToolStatus.timedOut =>
        (OpResult.mk false (some "OCR processing timed out"),
          if fs1.fileExists pdfDir (tempName pdfName) = true
          then fs1.removeFile pdfDir (tempName pdfName) else fs1)
    | ToolStatus.raised msg =>
        (OpResult.mk false (some msg),
          if fs1.fileExists pdfDir (tempName pdfName) = true
          then fs1.removeFile pdfDir (tempName pdfName) else fs1)

/-! ## pdf.py -/

/-- pdf.py lines 11–58, `convert_image_to_pdf`.  `decoded` is the outcome
of the PIL load/decode of the input image: `some img` when `Image.open`
succeeds, `none` when PIL raises (then nothing is written and the caught
exception is reported). -/
def convert_image_to_pdf (fs : FS) (imgDir : Dirp) (imgName : String)
    (outDir : Dirp) (outName : String) (decoded : Option PILImage) : OpResult × FS :=
  if fs.fileExists imgDir imgName = false then
    (OpResult.mk false (some ("Input image not found: " ++ locString imgDir imgName)), fs)
  else
    match decoded with
    | some img =>
        (OpResult.mk true none,
          fs.writeFile outDir outName (FileData.pdfPages [normalizeToRGB img]))
    | none => (OpResult.mk false (some "conversion error"), fs)

/-- The `{"success": ..., "error": ..., "page_count": ...}` dictionary of
`combine_images_to_pdf` (`page_count` is meaningful on success only). -/
structure CombineResult where
  success : Bool
  error : Option String
  page_count : Nat
deriving DecidableEq, Repr

/-- A file location: directory and name. -/
abbrev Loc := Dirp × String

/-- pdf.py lines 61–132, `combine_images_to_pdf`.  The empty-list check
comes first, then every input path is checked for existence before any
image is opened.  `decoded = some imgs` when every `Image.open` and the
final `save` succeed, with `imgs` the decoded images in input order;
`none` when PIL raises at some point (nothing is written then).  The third
component of the result is the list of inputs that were opened. -/
def combine_images_to_pdf (fs : FS) (paths : List Loc) (outDir : Dirp) (outName : String)
    (decoded : Option (List PILImage)) : CombineResult × FS × List Loc :=
  match paths with
  | [] => (CombineResult.mk false (some "No images provided") 0, fs, [])
  | _ :: _ =>
    match paths.find? (fun p => !fs.fileExists p.1 p.2) with
    | some p =>
        (CombineResult.mk false (some ("Image not found: " ++ locString p.1 p.2)) 0, fs, [])
    | none =>
      match decoded with
      | some imgs =>
          (CombineResult.mk true none paths.length,
            fs.writeFile outDir outName (FileData.pdfPages (imgs.map normalizeToRGB)),
            paths)
      | none => (CombineResult.mk false (some "conversion error") 0, fs, paths)

/-! ## scanner.py -/

/-- The configuration fields the capture workflows read.  The scanner
device fields only shape the external command string and are not modelled
beyond the command's outcome. -/
structure Config where
  storage : Dirp
  ocrEnabled : Bool
  discordEnabled : Bool
  discordWebhook : String
deriving DecidableEq, Repr

/-- Observable behaviour of one external `hp-scan` invocation: whether it
produced the requested output image, and with what content. -/
structure ScanRun where
  writes : Bool
  content : FileData
deriving DecidableEq, Repr

/-- `{storage}/temp/session_{session_id}` (scanner.py lines 115, 130, 197). -/
def sessionDir (cfg : Config) (sid : String) : Dirp :=
  cfg.storage ++ ["temp", "session_" ++ sid]

structure StartResult where
  success : Bool
  session_id : String
  session_dir : Dirp
deriving DecidableEq, Repr

/-- scanner.py lines 107–122, `start_multi_page_session`: create the
session directory named by the time-derived token (`exist_ok=True`) and
report success. -/
def start_multi_page_session (fs : FS) (cfg : Config) (ts : String) : StartResult × FS :=
  (StartResult.mk true ts (sessionDir cfg ts), fs.makedirs (sessionDir cfg ts))

inductive PageScan where
  | ok (page_number : Nat) (total_pages : Nat) (page_name : String)
  | err (error : String)
deriving DecidableEq, Repr

/-- scanner.py lines 124–190, `scan_page_for_session`: fail if the session
directory is absent; derive the next page index as the count of existing
`page_*.jpg` files plus one; run the scan command; fail if the page file
does not exist afterwards; report the index and the updated page count. -/
def scan_page_for_session (fs : FS) (cfg : Config) (sid : String) (run : ScanRun) :
    PageScan × FS :=
  let sd := sessionDir cfg sid
  if fs.dirExists sd = false then (PageScan.err "Session not found", fs)
  else
    let existing := fs.glob sd isPageName
    let page_num := existing.length + 1
    let pname := pageName page_num
    let fs1 := if run.writes then fs.writeFile sd pname run.content else fs
    if fs1.fileExists sd pname = false then (PageScan.err "Scan failed", fs1)
    else
      let updated := sortNames (fs1.glob sd isPageName)
      (PageScan.ok page_num updated.length pname, fs1)

/-- Outcomes of all the external calls `finish_multi_page_session` may
make: the one-page branch runs `ocr.process_image` (OCR enabled) or
`pdf.convert_image_to_pdf` (OCR disabled); the multi-page branch decodes
the pages with PIL and may run `ocr.make_pdf_searchable`; finally the
Discord webhook may be called. -/
structure FinishEnv where
  ocrRun : OcrRun
  convertImg : Option PILImage
  combineImgs : Option (List PILImage)
  searchRun : OcrRun
  discordOk : Bool
deriving DecidableEq, Repr

inductive FinishResult where
  | ok (file_dir : Dirp) (file_name : String) (file_type : String)
       (page_count : Nat) (discord : Bool)
  | err (error : String)
deriving DecidableEq, Repr

/-- `multi_page_{ts}.pdf` (scanner.py line 215). -/
def mpName (ts : String) : String := "multi_page_" ++ ts ++ ".pdf"

/-- scanner.py lines 192–272, `finish_multi_page_session`: fail if the
session directory is absent; list and sort the page files, failing if none
exist; with exactly one page run OCR directly (falling back to nothing —
the result of a failed OCR is only reflected in the file type string) or
plain conversion when OCR is disabled; with several pages combine the
images into one PDF and, when that succeeded and OCR is enabled, make it
searchable in place; notify Discord; delete the session directory; report
success with the output path and the page count. -/
def finish_multi_page_session (fs : FS) (cfg : Config) (sid ts : String)
    (env : FinishEnv) : FinishResult × FS :=
  let sd := sessionDir cfg sid
  if fs.dirExists sd = false then (FinishResult.err "Session not found", fs)
  else
    let pages := sortNames (fs.glob sd isPageName)
    match pages with
    | [] => (FinishResult.err "No pages found in session", fs)
    | p :: rest =>
      let stage :=
        match rest with
        | [] =>
          if cfg.ocrEnabled then
            let r := process_image fs sd p cfg.storage (mpName ts) env.ocrRun
            ((if r.1.success then "Searchable PDF" else "PDF (OCR failed)"), r.2)
          else
            let r := convert_image_to_pdf fs sd p cfg.storage (mpName ts) env.convertImg
            ("PDF", r.2)
        | _ :: _ =>
          let r := combine_images_to_pdf fs ((p :: rest).map fun n => (sd, n))
                     cfg.storage (mpName ts) env.combineImgs
          if r.1.success = true ∧ cfg.ocrEnabled = true then
            let r2 := make_pdf_searchable r.2.1 cfg.storage (mpName ts) env.searchRun
            ((if r2.1.success then "Searchable PDF" else "PDF (not searchable)"), r2.2)
          else
            ("PDF", r.2.1)
      let notified := cfg.discordEnabled && decide (cfg.discordWebhook ≠ "") && env.discordOk
      (FinishResult.ok cfg.storage (mpName ts) stage.1 (p :: rest).length notified,
        stage.2.rmtree sd)

inductive CaptureResult where
  | ok (file_dir : Dirp) (file_name : String) (file_type : String) (discord : Bool)
  | err (error : String)
deriving DecidableEq, Repr

/-- `scan_{ts}.jpg` (scanner.py line 24). -/
def scanImgName (ts : String) : String := "scan_" ++ ts ++ ".jpg"

/-- `scan_{ts}.pdf` (scanner.py line 25). -/
def scanPdfName (ts : String) : String := "scan_" ++ ts ++ ".pdf"

/-- scanner.py lines 11–104, `scan_single_page`: create the temp directory,
run the scan command, fail if no image appeared; with OCR enabled run
`ocr.process_image` and on OCR failure fall back to plain conversion; with
OCR disabled convert directly; notify Discord; delete the intermediate
image; report success with the output path and a file type string. -/
def scan_single_page (fs : FS) (cfg : Config) (ts : String) (scan : ScanRun)
    (ocrRun : OcrRun) (conv : Option PILImage) (discordOk : Bool) :
    CaptureResult × FS :=
  let tempDir := cfg.storage ++ ["temp"]
  let fs0 := fs.makedirs tempDir
  let fs1 := if scan.writes then fs0.writeFile tempDir (scanImgName ts) scan.content else fs0
  if fs1.fileExists tempDir (scanImgName ts) = false then
    (CaptureResult.err "Scan failed", fs1)
  else
    let stage :=
      if cfg.ocrEnabled then
        let r := process_image fs1 tempDir (scanImgName ts) cfg.storage (scanPdfName ts) ocrRun
        if r.1.success then ("Searchable PDF", r.2)
        else
          let r2 := convert_image_to_pdf r.2 tempDir (scanImgName ts)
                      cfg.storage (scanPdfName ts) conv
          ("PDF (OCR failed)", r2.2)
      else
        let r := convert_image_to_pdf fs1 tempDir (scanImgName ts)
                   cfg.storage (scanPdfName ts) conv
        ("PDF", r.2)
    let notified := cfg.discordEnabled && decide (cfg.discordWebhook ≠ "") && discordOk
    let fs3 := if stage.2.fileExists tempDir (scanImgName ts) = true
               then stage.2.removeFile tempDir (scanImgName ts) else stage.2
    (CaptureResult.ok cfg.storage (scanPdfName ts) stage.1 notified, fs3)

/-! ## Concrete states used by witnesses and counterexamples -/

def exCfg : Config := Config.mk ["scans"] true false ""

def exCfgNoOcr : Config := Config.mk ["scans"] false false ""

def exSd : Dirp := ["scans", "temp", "session_S"]

def exPage (k : Nat) : FEntry := FEntry.mk exSd (pageName k) (FileData.bytes "jpg")

def exFsEmptySession : FS := FS.mk [["scans"], ["scans", "temp"], exSd] []

def exFsNoSession : FS := FS.mk [["scans"], ["scans", "temp"]] []

def exFs1 : FS := FS.mk [["scans"], ["scans", "temp"], exSd] [exPage 1]

def exFs2 : FS := FS.mk [["scans"], ["scans", "temp"], exSd] [exPage 1, exPage 2]

def exOcrOk : OcrRun := OcrRun.mk (ToolStatus.finished 0) true (FileData.bytes "searchable")

def exOcrFail : OcrRun := OcrRun.mk (ToolStatus.finished 1) false (FileData.bytes "")

def exImg : PILImage := PILImage.mk "RGB" [Pixel.mk 1 2 3 255]

def exScanOk : ScanRun := ScanRun.mk true (FileData.bytes "jpg")

def exEnvOk : FinishEnv := FinishEnv.mk exOcrOk (some exImg) (some [exImg, exImg]) exOcrOk true

def exEnvCombineFail : FinishEnv := FinishEnv.mk exOcrFail none none exOcrFail false

def exEnvOcrFail : FinishEnv := FinishEnv.mk exOcrFail (some exImg) (some [exImg]) exOcrFail false

def exImgLA : PILImage := PILImage.mk "LA" [Pixel.mk 128 128 128 0]

def exImgRGBA : PILImage := PILImage.mk "RGBA" [Pixel.mk 10 20 30 0]

/-! ## Sequential appends (claim C6) -/

/-- Iterated `scan_page_for_session` calls against one session, each scan
command succeeding with content `c`: the final state and the per-call
results in call order. -/
def appendRun (fs : FS) (cfg : Config) (sid : String) (c : FileData) : Nat → FS × List PageScan
  | 0 => (fs, [])
  | k + 1 =>
    let s := appendRun fs cfg sid c k
    let r := scan_page_for_session s.1 cfg sid (ScanRun.mk true c)
    (r.2, s.2 ++ [r.1])

/-- The page entries of the session directory after `k` successful appends,
most recent first (the order `FS.writeFile` stores them). -/
def pagesFiles (sd : Dirp) (c : FileData) : Nat → List FEntry
  | 0 => []
  | k + 1 => FEntry.mk sd (pageName (k + 1)) c :: pagesFiles sd c k

/-! ## Success path of finalize (claim C1) -/

/-- The assembly step of `finish_multi_page_session` succeeded: with one
page, recognition (OCR enabled) wrote its output and exited 0, or plain
conversion (OCR disabled) decoded the image; with several pages, the PIL
combine step decoded and saved the images. -/
def assemblySucceeds (cfg : Config) (env : FinishEnv) (pageCount : Nat) : Prop :=
  if pageCount = 1 then
    if cfg.ocrEnabled then
      env.ocrRun.wrote = true ∧ env.ocrRun.status = ToolStatus.finished 0
    else env.convertImg.isSome = true
  else env.combineImgs.isSome = true

/-! ## Interleaving of concurrent page scans (claim C2)

`scan_page_for_session` holds no lock: the page count is read from the
directory listing (scanner.py lines 138–140) and the scan command writes
the derived page file (line 162) only later, so two concurrent calls
against the same session interleave at that boundary.  Each phase below is
one atomic step of one call against the shared filesystem.
-/

inductive RacePhase where
  | ready
  | counted (page_num : Nat)
  | returned (res : PageScan)
deriving DecidableEq, Repr

/-- One atomic step of a `scan_page_for_session` call in phase `ph` against
the shared state `fs` (the scan command itself succeeds and writes `c`):
first the session check and the count-derived index (lines 132–143), then
the write of the derived page file and the result (lines 162–183). -/
def raceStep (cfg : Config) (sid : String) (c : FileData) (fs : FS) (ph : RacePhase) :
    FS × RacePhase :=
  let sd := sessionDir cfg sid
  match ph with
  | RacePhase.ready =>
      if fs.dirExists sd = false then
        (fs, RacePhase.returned (PageScan.err "Session not found"))
      else (fs, RacePhase.counted ((fs.glob sd isPageName).length + 1))
  | RacePhase.counted n =>
      let fs1 := fs.writeFile sd (pageName n) c
      let updated := sortNames (fs1.glob sd isPageName)
      (fs1, RacePhase.returned (PageScan.ok n updated.length (pageName n)))
  | RacePhase.returned r => (fs, RacePhase.returned r)

/-- Run a schedule over two concurrent `scan_page_for_session` calls A and
B against one shared session: `true` steps A, `false` steps B. -/
def raceRun (cfg : Config) (sid : String) (c : FileData) :
    List Bool → FS → RacePhase → RacePhase → FS × RacePhase × RacePhase
  | [], fs, a, b => (fs, a, b)
  | true :: s, fs, a, b =>
      let r := raceStep cfg sid c fs a
      raceRun cfg sid c s r.1 r.2 b
  | false :: s, fs, a, b =>
      let r := raceStep cfg sid c fs b
      raceRun cfg sid c s r.1 a r.2

theorem decDigitsAux_congr (n : Nat) : ∀ f g, n < f → n < g →
    decDigitsAux f n = decDigitsAux g n := by
  induction n using Nat.strong_induction_on with
  | _ n ih =>
    intro f g hf hg
    match f, g with
    | f + 1, g + 1 =>
      by_cases h : n < 10
      · simp [decDigitsAux, h]
      · have hd : n / 10 < n := Nat.div_lt_self (by omega) (by omega)
        simp only [decDigitsAux, h, if_false]
        rw [ih (n / 10) hd f g (by omega) (by omega)]

theorem decDigits_eq (n : Nat) :
    decDigits n = if n < 10 then [n] else decDigits (n / 10) ++ [n % 10] := by
  by_cases h : n < 10
  · simp [decDigits, decDigitsAux, h]
  · rw [if_neg h]
    have h1 : decDigitsAux (n + 1) n = decDigitsAux n (n / 10) ++ [n % 10] := by
      rw [show decDigitsAux (n + 1) n
            = if n < 10 then [n] else decDigitsAux n (n / 10) ++ [n % 10] from rfl, if_neg h]
    rw [decDigits, h1, decDigitsAux_congr (n / 10) n (n / 10 + 1) (by omega) (by omega)]
    rfl

theorem charVal_digitChar : ∀ d, d < 10 → charVal (digitChar d) = d := by decide

theorem foldl_decDigits (n : Nat) : ∀ a : Nat,
    ((decDigits n).map digitChar).foldl unpadStep a =
      a * 10 ^ (decDigits n).length + n := by
  induction n using Nat.strong_induction_on with
  | _ n ih =>
    intro a
    rw [decDigits_eq n]
    by_cases h : n < 10
    · rw [if_pos h]
      show unpadStep a (digitChar n) = a * 10 ^ 1 + n
      rw [unpadStep, charVal_digitChar n h]
      ring
    · rw [if_neg h]
      have hd : n / 10 < n := Nat.div_lt_self (by omega) (by omega)
      rw [List.map_append, List.foldl_append, ih (n / 10) hd a]
      show unpadStep _ (digitChar (n % 10)) = _
      rw [unpadStep, charVal_digitChar (n % 10) (by omega)]
      rw [List.length_append, List.length_singleton, pow_succ]
      have h1 : a * (10 ^ (decDigits (n / 10)).length * 10) =
          a * 10 ^ (decDigits (n / 10)).length * 10 := by ring
      rw [h1]
      generalize a * 10 ^ (decDigits (n / 10)).length = A
      omega

theorem unpad_replicate_zero (l : List Char) : ∀ z : Nat,
    (List.replicate z '0' ++ l).foldl unpadStep 0 = l.foldl unpadStep 0 := by
  intro z
  induction z with
  | zero => simp
  | succ z ih =>
    rw [List.replicate_succ, List.cons_append, List.foldl_cons]
    have h0 : unpadStep 0 '0' = 0 := by decide
    rw [h0, ih]

theorem unpad_pad3 (n : Nat) : unpad (pad3 n) = n := by
  rw [unpad, pad3, unpad_replicate_zero]
  have h := foldl_decDigits n 0
  simpa using h

theorem pad3_injective {m n : Nat} (h : pad3 m = pad3 n) : m = n := by
  have hm := unpad_pad3 m
  rw [h, unpad_pad3 n] at hm
  exact hm.symm

theorem pageName_injective {m n : Nat} (h : pageName m = pageName n) : m = n := by
  have h1 : pageChars m = pageChars n := by
    have := congrArg String.data h
    simpa [pageName] using this
  rw [pageChars, pageChars] at h1
  have h2 := List.append_cancel_left h1
  have h3 := List.append_cancel_right h2
  exact pad3_injective h3

theorem isLeadOf_append {α : Type} [DecidableEq α] (l t : List α) :
    isLeadOf l (l ++ t) = true := by
  induction l with
  | nil => rfl
  | cons a as ih => simp [isLeadOf, ih]

theorem isLeadOf_self {α : Type} [DecidableEq α] (l : List α) :
    isLeadOf l l = true := by
  have h := isLeadOf_append l []
  rwa [List.append_nil] at h

theorem isTailOf_append {α : Type} [DecidableEq α] (t l : List α) :
    isTailOf l (t ++ l) = true := by
  rw [isTailOf, List.reverse_append]
  exact isLeadOf_append _ _

theorem isLeadOf_length {α : Type} [DecidableEq α] :
    ∀ p q : List α, isLeadOf p q = true → p.length ≤ q.length := by
  intro p
  induction p with
  | nil => intro q _; simp
  | cons a as ih =>
    intro q h
    match q with
    | [] => simp [isLeadOf] at h
    | b :: bs =>
      rw [isLeadOf, Bool.and_eq_true] at h
      have := ih bs h.2
      simp only [List.length_cons]
      omega

theorem lexLt_append_left (p : List Char) (a b : List Char) :
    lexLt (p ++ a) (p ++ b) = lexLt a b := by
  induction p with
  | nil => rfl
  | cons c cs ih => simp [lexLt, ih, Nat.lt_irrefl]

theorem lexLt_append_of_length_eq :
    ∀ a b t1 t2 : List Char, a.length = b.length → lexLt a b = true →
      lexLt (a ++ t1) (b ++ t2) = true := by
  intro a
  induction a with
  | nil =>
    intro b t1 t2 hlen h
    match b with
    | [] => simp [lexLt] at h
  | cons x xs ih =>
    intro b t1 t2 hlen h
    match b with
    | [] => simp at hlen
    | y :: ys =>
      rw [lexLt, Bool.or_eq_true, Bool.and_eq_true] at h
      rw [List.cons_append, List.cons_append, lexLt, Bool.or_eq_true, Bool.and_eq_true]
      rcases h with h | ⟨h1, h2⟩
      · exact Or.inl h
      · exact Or.inr ⟨h1, ih ys t1 t2 (by simpa using hlen) h2⟩

theorem isPageName_pageName (n : Nat) : isPageName (pageName n) = true := by
  rw [isPageName, Bool.and_eq_true]
  constructor
  · exact isLeadOf_append "page_".data (pad3 n ++ ".jpg".data)
  · show isTailOf ".jpg".data ("page_".data ++ (pad3 n ++ ".jpg".data)) = true
    rw [show "page_".data ++ (pad3 n ++ ".jpg".data)
          = ("page_".data ++ pad3 n) ++ ".jpg".data from by rw [List.append_assoc]]
    exact isTailOf_append _ _

/-! ### Three-digit form and ordering of page names below 1000 -/

theorem decDigits_len1 (n : Nat) (h : n < 10) : decDigits n = [n] := by
  rw [decDigits_eq, if_pos h]

theorem decDigits_len2 (n : Nat) (h1 : 10 ≤ n) (h2 : n < 100) :
    decDigits n = [n / 10, n % 10] := by
  rw [decDigits_eq, if_neg (by omega), decDigits_len1 (n / 10) (by omega)]
  rfl

theorem decDigits_len3 (n : Nat) (h1 : 100 ≤ n) (h2 : n < 1000) :
    decDigits n = [n / 100, n / 10 % 10, n % 10] := by
  rw [decDigits_eq, if_neg (by omega), decDigits_len2 (n / 10) (by omega) (by omega)]
  have ha : n / 10 / 10 = n / 100 := by omega
  rw [ha]
  rfl

theorem pad3_lt_1000 (n : Nat) (h : n < 1000) :
    pad3 n = [digitChar (n / 100), digitChar (n / 10 % 10), digitChar (n % 10)] := by
  by_cases h1 : n < 10
  · rw [pad3, decDigits_len1 n h1]
    have ha : n / 100 = 0 := by omega
    have hb : n / 10 % 10 = 0 := by omega
    have hc : n % 10 = n := by omega
    rw [ha, hb, hc]
    rfl
  · by_cases h2 : n < 100
    · rw [pad3, decDigits_len2 n (by omega) h2]
      have ha : n / 100 = 0 := by omega
      have hb : n / 10 % 10 = n / 10 := by omega
      rw [ha, hb]
      rfl
    · rw [pad3, decDigits_len3 n (by omega) h]
      rfl

theorem digitChar_toNat_lt :
    ∀ a, a < 10 → ∀ b, b < 10 → ((digitChar a).toNat < (digitChar b).toNat ↔ a < b) := by
  decide

theorem digitChar_toNat_eq :
    ∀ a, a < 10 → ∀ b, b < 10 → ((digitChar a).toNat = (digitChar b).toNat ↔ a = b) := by
  decide

theorem pad3_lexLt (i j : Nat) (hij : i < j) (hj : j < 1000) :
    lexLt (pad3 i) (pad3 j) = true := by
  rw [pad3_lt_1000 i (by omega), pad3_lt_1000 j hj]
  have hsplit : i / 100 < j / 100 ∨ (i / 100 = j / 100 ∧
      (i / 10 % 10 < j / 10 % 10 ∨ (i / 10 % 10 = j / 10 % 10 ∧ i % 10 < j % 10))) := by
    omega
  have b1 : i / 100 < 10 := by omega
  have b2 : j / 100 < 10 := by omega
  have b3 : i / 10 % 10 < 10 := by omega
  have b4 : j / 10 % 10 < 10 := by omega
  have b5 : i % 10 < 10 := by omega
  have b6 : j % 10 < 10 := by omega
  simp only [lexLt, Bool.or_eq_true, Bool.and_eq_true, decide_eq_true_eq]
  rcases hsplit with h | ⟨h1, h | ⟨h2, h3⟩⟩
  · exact Or.inl ((digitChar_toNat_lt _ b1 _ b2).mpr h)
  · exact Or.inr ⟨(digitChar_toNat_eq _ b1 _ b2).mpr h1,
      Or.inl ((digitChar_toNat_lt _ b3 _ b4).mpr h)⟩
  · exact Or.inr ⟨(digitChar_toNat_eq _ b1 _ b2).mpr h1,
      Or.inr ⟨(digitChar_toNat_eq _ b3 _ b4).mpr h2,
        Or.inl ((digitChar_toNat_lt _ b5 _ b6).mpr h3)⟩⟩

theorem pad3_length_lt_1000 (n : Nat) (h : n < 1000) : (pad3 n).length = 3 := by
  rw [pad3_lt_1000 n h]
  rfl

theorem pageName_lexLt (i j : Nat) (hij : i < j) (hj : j ≤ 999) :
    lexLt (pageName i).data (pageName j).data = true := by
  show lexLt (pageChars i) (pageChars j) = true
  rw [pageChars, pageChars, lexLt_append_left]
  exact lexLt_append_of_length_eq (pad3 i) (pad3 j) ".jpg".data ".jpg".data
    (by rw [pad3_length_lt_1000 i (by omega), pad3_length_lt_1000 j (by omega)])
    (pad3_lexLt i j hij (by omega))

theorem insertName_length (x : String) : ∀ l, (insertName x l).length = l.length + 1 := by
  intro l
  induction l with
  | nil => rfl
  | cons y ys ih =>
    rw [insertName]
    by_cases h : lexLt x.data y.data = true
    · rw [if_pos h]; rfl
    · rw [if_neg h, List.length_cons, ih, List.length_cons]

theorem sortNames_length : ∀ l, (sortNames l).length = l.length := by
  intro l
  induction l with
  | nil => rfl
  | cons x xs ih => rw [sortNames, insertName_length, ih, List.length_cons]

theorem sortNames_eq_nil : ∀ l, sortNames l = [] ↔ l = [] := by
  intro l
  constructor
  · intro h
    have hl := sortNames_length l
    rw [h] at hl
    exact List.length_eq_zero.mp hl.symm
  · intro h; rw [h]; rfl

theorem insertName_mem (x : String) : ∀ l y, y ∈ insertName x l ↔ y = x ∨ y ∈ l := by
  intro l
  induction l with
  | nil => intro y; simp [insertName]
  | cons z zs ih =>
    intro y
    rw [insertName]
    by_cases h : lexLt x.data z.data = true
    · rw [if_pos h]; simp
    · rw [if_neg h]
      simp only [List.mem_cons, ih]
      tauto

theorem sortNames_mem : ∀ l y, y ∈ sortNames l ↔ y ∈ l := by
  intro l
  induction l with
  | nil => intro y; simp [sortNames]
  | cons x xs ih =>
    intro y
    rw [sortNames, insertName_mem]
    simp only [List.mem_cons, ih]

/-! ### Basic filesystem lemmas -/

theorem find?_filter_of_imp {p q : FEntry → Bool} :
    ∀ l : List FEntry, (∀ e, p e = true → q e = true) →
      (l.filter q).find? p = l.find? p := by
  intro l h
  induction l with
  | nil => rfl
  | cons a as ih =>
    by_cases hq : q a = true
    · rw [List.filter_cons_of_pos hq]
      by_cases hp : p a = true
      · rw [List.find?_cons_of_pos _ hp, List.find?_cons_of_pos _ hp]
      · rw [List.find?_cons_of_neg _ (by simpa using hp),
          List.find?_cons_of_neg _ (by simpa using hp), ih]
    · have hp : p a = false := by
        cases hpa : p a with
        | true => exact absurd (h a hpa) hq
        | false => rfl
      rw [List.filter_cons_of_neg (by simpa using hq),
        List.find?_cons_of_neg _ (by simp [hp]), ih]

theorem any_filter_not {α : Type} (p : α → Bool) :
    ∀ l : List α, (l.filter fun e => !p e).any p = false := by
  intro l
  induction l with
  | nil => rfl
  | cons a as ih =>
    cases hp : p a with
    | true => rw [List.filter_cons_of_neg (by simp [hp]), ih]
    | false => rw [List.filter_cons_of_pos (by simp [hp]), List.any_cons, hp, ih]; rfl

theorem fileExists_isSome (fs : FS) (d : Dirp) (n : String) :
    fs.fileExists d n = (fs.readFile d n).isSome := by
  rw [FS.fileExists, FS.readFile]
  cases hfind : fs.files.find? (fun e => decide (e.dir = d ∧ e.name = n)) with
  | none =>
    rw [List.find?_eq_none] at hfind
    simp only [Option.map_none', Option.isSome_none]
    rw [List.any_eq_false]
    intro e he
    simpa using hfind e he
  | some e =>
    simp only [Option.map_some', Option.isSome_some]
    rw [List.any_eq_true]
    have h1 := List.mem_of_find?_eq_some hfind
    have h2 := List.find?_some hfind
    exact ⟨e, h1, h2⟩

theorem readFile_writeFile_self (fs : FS) (d : Dirp) (n : String) (c : FileData) :
    (fs.writeFile d n c).readFile d n = some c := by
  simp only [FS.writeFile, FS.readFile]
  rw [List.find?_cons_of_pos _ (by simp)]
  rfl

theorem fileExists_writeFile_self (fs : FS) (d : Dirp) (n : String) (c : FileData) :
    (fs.writeFile d n c).fileExists d n = true := by
  rw [fileExists_isSome, readFile_writeFile_self]
  rfl

theorem readFile_writeFile_ne (fs : FS) (d : Dirp) (n : String) (c : FileData)
    (d2 : Dirp) (n2 : String) (h : ¬(d2 = d ∧ n2 = n)) :
    (fs.writeFile d n c).readFile d2 n2 = fs.readFile d2 n2 := by
  simp only [FS.writeFile, FS.readFile]
  rw [List.find?_cons_of_neg _ (by simp; intro hd hn; exact h ⟨hd.symm, hn.symm⟩)]
  congr 1
  apply find?_filter_of_imp
  intro e he
  simp only [decide_eq_true_eq] at he
  simp only [Bool.not_eq_true']
  rw [decide_eq_false_iff_not]
  intro hcontra
  exact h ⟨he.1.symm.trans hcontra.1, he.2.symm.trans hcontra.2⟩

theorem fileExists_writeFile_ne (fs : FS) (d : Dirp) (n : String) (c : FileData)
    (d2 : Dirp) (n2 : String) (h : ¬(d2 = d ∧ n2 = n)) :
    (fs.writeFile d n c).fileExists d2 n2 = fs.fileExists d2 n2 := by
  rw [fileExists_isSome, fileExists_isSome, readFile_writeFile_ne fs d n c d2 n2 h]

theorem readFile_removeFile_ne (fs : FS) (d : Dirp) (n : String)
    (d2 : Dirp) (n2 : String) (h : ¬(d2 = d ∧ n2 = n)) :
    (fs.removeFile d n).readFile d2 n2 = fs.readFile d2 n2 := by
  rw [FS.removeFile, FS.readFile, FS.readFile]
  congr 1
  apply find?_filter_of_imp
  intro e he
  simp only [decide_eq_true_eq] at he
  simp only [Bool.not_eq_true']
  rw [decide_eq_false_iff_not]
  intro hcontra
  exact h ⟨he.1.symm.trans hcontra.1, he.2.symm.trans hcontra.2⟩

theorem fileExists_removeFile_ne (fs : FS) (d : Dirp) (n : String)
    (d2 : Dirp) (n2 : String) (h : ¬(d2 = d ∧ n2 = n)) :
    (fs.removeFile d n).fileExists d2 n2 = fs.fileExists d2 n2 := by
  rw [fileExists_isSome, fileExists_isSome, readFile_removeFile_ne fs d n d2 n2 h]

theorem fileExists_removeFile_self (fs : FS) (d : Dirp) (n : String) :
    (fs.removeFile d n).fileExists d n = false := by
  rw [FS.removeFile, FS.fileExists]
  exact any_filter_not _ _

theorem fileExists_of_mem_glob (fs : FS) (d : Dirp) (pat : String → Bool)
    (n : String) (h : n ∈ fs.glob d pat) : fs.fileExists d n = true := by
  rw [FS.glob] at h
  rw [List.mem_filterMap] at h
  obtain ⟨e, he, hsome⟩ := h
  by_cases hc : e.dir = d ∧ pat e.name = true
  · rw [if_pos hc] at hsome
    rw [FS.fileExists, List.any_eq_true]
    refine ⟨e, he, ?_⟩
    simp only [decide_eq_true_eq]
    exact ⟨hc.1, Option.some.inj hsome⟩
  · rw [if_neg hc] at hsome
    exact absurd hsome (by simp)

theorem dirExists_rmtree_self (fs : FS) (d : Dirp) :
    (fs.rmtree d).dirExists d = false := by
  rw [FS.rmtree, FS.dirExists]
  simp [List.mem_filter, isLeadOf_self]

theorem readFile_rmtree_not_under (fs : FS) (d : Dirp) (d2 : Dirp) (n2 : String)
    (h : isLeadOf d d2 = false) :
    (fs.rmtree d).readFile d2 n2 = fs.readFile d2 n2 := by
  rw [FS.rmtree, FS.readFile, FS.readFile]
  congr 1
  apply find?_filter_of_imp
  intro e he
  simp only [decide_eq_true_eq] at he
  rw [he.1, h]
  rfl

theorem fileExists_rmtree_not_under (fs : FS) (d : Dirp) (d2 : Dirp) (n2 : String)
    (h : isLeadOf d d2 = false) :
    (fs.rmtree d).fileExists d2 n2 = fs.fileExists d2 n2 := by
  rw [fileExists_isSome, fileExists_isSome, readFile_rmtree_not_under fs d d2 n2 h]

theorem isLeadOf_append_two_false {α : Type} [DecidableEq α] (l : List α) (a b : α) :
    isLeadOf (l ++ [a, b]) l = false := by
  cases h : isLeadOf (l ++ [a, b]) l with
  | false => rfl
  | true =>
    have := isLeadOf_length _ _ h
    rw [List.length_append] at this
    simp at this

/-! ## Further helper lemmas -/

theorem makedirs_mem (fs : FS) (d : Dirp) : d ∈ (fs.makedirs d).dirs := by
  rw [FS.makedirs]
  by_cases h : d ∈ fs.dirs
  · rw [if_pos h]; exact h
  · rw [if_neg h]; exact List.mem_cons_self _ _

theorem makedirs_idem (fs : FS) (d : Dirp) :
    (fs.makedirs d).makedirs d = fs.makedirs d := by
  conv_lhs => rw [FS.makedirs]
  rw [if_pos (makedirs_mem fs d)]

theorem tempName_ne (n : String) : n ≠ tempName n := by
  intro h
  have hlen := congrArg String.length h
  rw [tempName, String.length_append] at hlen
  simp at hlen
  exact absurd hlen (by decide)

/-! ## Claims -/

/-- C10: any two `start_multi_page_session` calls made within the same
wall-clock second (hence with the same timestamp token `ts`) both return
`success = true` with the same session token and the same backing
directory; the second call silently reuses the existing directory
(`exist_ok=True`) without changing any state, so pages appended through
either token accumulate in the one shared session directory, and starting
a session never fails because the directory already exists. -/
theorem C10_same_second_session_reuse (fs : FS) (cfg : Config) (ts : String) :
    (start_multi_page_session fs cfg ts).1.success = true
    ∧ (start_multi_page_session (start_multi_page_session fs cfg ts).2 cfg ts).1.success = true
    ∧ (start_multi_page_session (start_multi_page_session fs cfg ts).2 cfg ts).1.session_id
        = (start_multi_page_session fs cfg ts).1.session_id
    ∧ (start_multi_page_session (start_multi_page_session fs cfg ts).2 cfg ts).1.session_dir
        = (start_multi_page_session fs cfg ts).1.session_dir
    ∧ (start_multi_page_session (start_multi_page_session fs cfg ts).2 cfg ts).2
        = (start_multi_page_session fs cfg ts).2
    ∧ (start_multi_page_session fs cfg ts).2.dirExists (sessionDir cfg ts) = true := by
  refine ⟨rfl, rfl, rfl, rfl, ?_, ?_⟩
  · show ((fs.makedirs (sessionDir cfg ts)).makedirs (sessionDir cfg ts))
        = fs.makedirs (sessionDir cfg ts)
    exact makedirs_idem fs (sessionDir cfg ts)
  · show (fs.makedirs (sessionDir cfg ts)).dirExists (sessionDir cfg ts) = true
    rw [FS.dirExists, decide_eq_true_eq]
    exact makedirs_mem fs (sessionDir cfg ts)

/-- C8: finalizing a session whose directory exists but holds no page
files always fails with the empty-session error and leaves the filesystem
(in particular the session directory, and the absence of any new document)
unchanged; and for a token whose session directory is absent, both the
page-scan call and the finalize call fail with the session-not-found
error, again leaving the filesystem unchanged. -/
theorem C8_empty_session_and_not_found (fs : FS) (cfg : Config) (sid ts : String)
    (env : FinishEnv) (run : ScanRun) :
    (fs.dirExists (sessionDir cfg sid) = true →
      fs.glob (sessionDir cfg sid) isPageName = [] →
      finish_multi_page_session fs cfg sid ts env
        = (FinishResult.err "No pages found in session", fs))
    ∧ (fs.dirExists (sessionDir cfg sid) = false →
        finish_multi_page_session fs cfg sid ts env
          = (FinishResult.err "Session not found", fs)
        ∧ scan_page_for_session fs cfg sid run
          = (PageScan.err "Session not found", fs)) := by
  constructor
  · intro hdir hglob
    rw [finish_multi_page_session]
    rw [if_neg (by rw [hdir]; simp)]
    rw [hglob]
    rfl
  · intro hdir
    constructor
    · rw [finish_multi_page_session, if_pos hdir]
    · rw [scan_page_for_session, if_pos hdir]

theorem C8_witness :
    finish_multi_page_session exFsEmptySession exCfg "S" "T" exEnvOk
      = (FinishResult.err "No pages found in session", exFsEmptySession)
    ∧ finish_multi_page_session exFsNoSession exCfg "S" "T" exEnvOk
      = (FinishResult.err "Session not found", exFsNoSession)
    ∧ scan_page_for_session exFsNoSession exCfg "S" exScanOk
      = (PageScan.err "Session not found", exFsNoSession) := by
  refine ⟨?_, ?_, ?_⟩
  · exact (C8_empty_session_and_not_found exFsEmptySession exCfg "S" "T" exEnvOk exScanOk).1
      (by decide) (by decide)
  · exact ((C8_empty_session_and_not_found exFsNoSession exCfg "S" "T" exEnvOk exScanOk).2
      (by decide)).1
  · exact ((C8_empty_session_and_not_found exFsNoSession exCfg "S" "T" exEnvOk exScanOk).2
      (by decide)).2

/-- C7: `combine_images_to_pdf` on the empty list fails with the
no-images-provided error and leaves the filesystem unchanged (no file
written, nothing opened); and when any input path of a non-empty list does
not exist it fails with an image-not-found error naming a missing input,
before any conversion begins: the filesystem is unchanged and no image was
opened. -/
theorem C7_combine_guards (fs : FS) (paths : List Loc) (outDir : Dirp) (outName : String)
    (decoded : Option (List PILImage)) :
    (paths = [] → combine_images_to_pdf fs paths outDir outName decoded
        = (CombineResult.mk false (some "No images provided") 0, fs, []))
    ∧ (∀ q, q ∈ paths → fs.fileExists q.1 q.2 = false →
        ∃ m, m ∈ paths ∧ fs.fileExists m.1 m.2 = false
          ∧ combine_images_to_pdf fs paths outDir outName decoded
              = (CombineResult.mk false (some ("Image not found: " ++ locString m.1 m.2)) 0,
                  fs, [])) := by
  constructor
  · intro h
    rw [h]
    rfl
  · intro q hq hqex
    match paths, hq with
    | a :: rest, hq =>
      cases hfind : (a :: rest).find? (fun p => !fs.fileExists p.1 p.2) with
      | none =>
        rw [List.find?_eq_none] at hfind
        have := hfind q hq
        rw [hqex] at this
        simp at this
      | some m =>
        have hm := List.mem_of_find?_eq_some hfind
        have hmex := List.find?_some hfind
        rw [Bool.not_eq_true'] at hmex
        refine ⟨m, hm, hmex, ?_⟩
        simp only [combine_images_to_pdf]
        rw [hfind]

theorem C7_witness :
    combine_images_to_pdf exFsNoSession [] ["scans"] "out.pdf" (some [])
      = (CombineResult.mk false (some "No images provided") 0, exFsNoSession, [])
    ∧ ∃ m, m ∈ [(exSd, "missing.jpg")] ∧ exFsNoSession.fileExists m.1 m.2 = false
        ∧ combine_images_to_pdf exFsNoSession [(exSd, "missing.jpg")] ["scans"] "out.pdf"
            (some [])
          = (CombineResult.mk false (some ("Image not found: " ++ locString m.1 m.2)) 0,
              exFsNoSession, []) := by
  constructor
  · exact (C7_combine_guards exFsNoSession [] ["scans"] "out.pdf" (some [])).1 rfl
  · exact (C7_combine_guards exFsNoSession [(exSd, "missing.jpg")] ["scans"] "out.pdf"
      (some [])).2 (exSd, "missing.jpg") (by simp) (by decide)

theorem if_write_readFile_ne (fs : FS) (d : Dirp) (tn : String) (w : Bool) (c : FileData)
    (d2 : Dirp) (n2 : String) (h : ¬(d2 = d ∧ n2 = tn)) :
    (if w = true then fs.writeFile d tn c else fs).readFile d2 n2 = fs.readFile d2 n2 := by
  cases w with
  | false => rfl
  | true => rw [if_pos rfl]; exact readFile_writeFile_ne fs d tn c d2 n2 h

theorem cleanup_fileExists (fs0 : FS) (d : Dirp) (tn : String) :
    (if fs0.fileExists d tn = true then fs0.removeFile d tn else fs0).fileExists d tn
      = false := by
  by_cases hex : fs0.fileExists d tn = true
  · rw [if_pos hex]; exact fileExists_removeFile_self fs0 d tn
  · rw [if_neg hex]; simpa using hex

theorem cleanup_readFile_ne (fs0 : FS) (d : Dirp) (tn : String)
    (d2 : Dirp) (n2 : String) (h : ¬(d2 = d ∧ n2 = tn)) :
    (if fs0.fileExists d tn = true then fs0.removeFile d tn else fs0).readFile d2 n2
      = fs0.readFile d2 n2 := by
  by_cases hex : fs0.fileExists d tn = true
  · rw [if_pos hex]; exact readFile_removeFile_ne fs0 d tn d2 n2 h
  · rw [if_neg hex]

/-- C5: `make_pdf_searchable` on an existing PDF writes recognition output
only to the temporary sibling path `{pdf}.temp.pdf`: after the call the
temporary artifact never remains; the original is replaced by the
recognized output only when the external tool exited 0 (and then, when the
tool actually wrote its output, the original's content is exactly that
output); on every failure (non-zero exit, missing output, timeout or
exception) the original PDF's content is byte-for-byte unchanged; and no
file other than the original and the temporary sibling is ever touched. -/
theorem C5_make_pdf_searchable_safety (fs : FS) (d : Dirp) (n : String) (run : OcrRun)
    (h : fs.fileExists d n = true) :
    ((make_pdf_searchable fs d n run).2.fileExists d (tempName n) = false)
    ∧ ((make_pdf_searchable fs d n run).1.success = true →
         run.status = ToolStatus.finished 0
         ∧ (run.wrote = true →
             (make_pdf_searchable fs d n run).2.readFile d n = some run.output))
    ∧ ((make_pdf_searchable fs d n run).1.success = false →
         (make_pdf_searchable fs d n run).2.readFile d n = fs.readFile d n)
    ∧ (∀ d2 n2, ¬(d2 = d ∧ n2 = n) → ¬(d2 = d ∧ n2 = tempName n) →
         (make_pdf_searchable fs d n run).2.readFile d2 n2 = fs.readFile d2 n2) := by
  have hno : ¬ (fs.fileExists d n = false) := by rw [h]; simp
  have hnn : ¬ ((d, n) = (d, tempName n)) := by
    intro hcontra
    exact tempName_ne n (congrArg Prod.snd hcontra)
  obtain ⟨status, wrote, output⟩ := run
  rw [make_pdf_searchable, if_neg hno]
  dsimp only
  have hf1rn : (if wrote = true then fs.writeFile d (tempName n) output else fs).readFile d n
      = fs.readFile d n := by
    apply if_write_readFile_ne
    intro hc
    exact tempName_ne n hc.2
  cases status with
  | finished c =>
    dsimp only
    by_cases hcond : c = 0 ∧
        (if wrote = true then fs.writeFile d (tempName n) output else fs).fileExists d
          (tempName n) = true
    · rw [if_pos hcond]
      dsimp only
      have hsome := hcond.2
      rw [fileExists_isSome] at hsome
      obtain ⟨c', hc'⟩ := Option.isSome_iff_exists.mp hsome
      refine ⟨?_, ?_, ?_, ?_⟩
      · rw [FS.replaceFile, hc']
        rw [fileExists_writeFile_ne _ _ _ _ _ _
            (by intro hcontra; exact tempName_ne n hcontra.2.symm)]
        exact fileExists_removeFile_self _ _ _
      · intro _
        refine ⟨by rw [hcond.1], ?_⟩
        intro hw
        subst hw
        rw [if_pos rfl] at hc'
        have hcout : c' = output := by
          rw [readFile_writeFile_self] at hc'
          exact (Option.some.inj hc').symm
        rw [FS.replaceFile, if_pos rfl, hc', hcout]
        dsimp only
        rw [readFile_writeFile_self]
      · intro habs
        simp at habs
      · intro d2 n2 h1 h2
        rw [FS.replaceFile, hc']
        rw [readFile_writeFile_ne _ _ _ _ _ _ h1, readFile_removeFile_ne _ _ _ _ _ h2]
        exact if_write_readFile_ne fs d (tempName n) wrote output d2 n2 h2
    · rw [if_neg hcond]
      dsimp only
      refine ⟨cleanup_fileExists _ _ _, ?_, ?_, ?_⟩
      · intro habs
        simp at habs
      · intro _
        rw [cleanup_readFile_ne _ _ _ _ _ (by intro hc; exact tempName_ne n hc.2)]
        exact hf1rn
      · intro d2 n2 h1 h2
        rw [cleanup_readFile_ne _ _ _ _ _ h2]
        exact if_write_readFile_ne fs d (tempName n) wrote output d2 n2 h2
  | timedOut =>
    dsimp only
    refine ⟨cleanup_fileExists _ _ _, ?_, ?_, ?_⟩
    · intro habs
      simp at habs
    · intro _
      rw [cleanup_readFile_ne _ _ _ _ _ (by intro hc; exact tempName_ne n hc.2)]
      exact hf1rn
    · intro d2 n2 h1 h2
      rw [cleanup_readFile_ne _ _ _ _ _ h2]
      exact if_write_readFile_ne fs d (tempName n) wrote output d2 n2 h2
  | raised msg =>
    dsimp only
    refine ⟨cleanup_fileExists _ _ _, ?_, ?_, ?_⟩
    · intro habs
      simp at habs
    · intro _
      rw [cleanup_readFile_ne _ _ _ _ _ (by intro hc; exact tempName_ne n hc.2)]
      exact hf1rn
    · intro d2 n2 h1 h2
      rw [cleanup_readFile_ne _ _ _ _ _ h2]
      exact if_write_readFile_ne fs d (tempName n) wrote output d2 n2 h2

theorem C5_witness :
    (make_pdf_searchable exFs1 exSd (pageName 1) exOcrOk).2.fileExists exSd
        (tempName (pageName 1)) = false
    ∧ exOcrOk.status = ToolStatus.finished 0
    ∧ (make_pdf_searchable exFs1 exSd (pageName 1) exOcrOk).2.readFile exSd (pageName 1)
        = some exOcrOk.output := by
  have h := C5_make_pdf_searchable_safety exFs1 exSd (pageName 1) exOcrOk (by decide)
  have hsucc : (make_pdf_searchable exFs1 exSd (pageName 1) exOcrOk).1.success = true := by
    decide
  exact ⟨h.1, (h.2.1 hsucc).1, (h.2.1 hsucc).2 rfl⟩

/-- C9 (amended): in the normalization step shared by `convert_image_to_pdf`
and `combine_images_to_pdf`, an image in RGBA mode is composited onto an
opaque white background before encoding; every other non-RGB mode —
including the remaining alpha-carrying modes such as LA, which are
plain-converted with their alpha dropped rather than white-composited — is
normalized to RGB; the output mode is always RGB and no alpha survives the
normalization; and on success `convert_image_to_pdf` writes exactly the
normalized image as the produced PDF's page. -/
theorem C9_normalization_policy (i : PILImage) (fs : FS) (dI : Dirp) (nI : String)
    (dO : Dirp) (nO : String) (hex : fs.fileExists dI nI = true) :
    (i.mode = "RGBA" → normalizeToRGB i = compositeOnWhite i)
    ∧ (i.mode ≠ "RGBA" → i.mode ≠ "RGB" → normalizeToRGB i = pilConvertRGB i)
    ∧ (normalizeToRGB i).mode = "RGB"
    ∧ (i.mode ≠ "RGB" → ∀ p, p ∈ (normalizeToRGB i).pixels → p.a = 255)
    ∧ (convert_image_to_pdf fs dI nI dO nO (some i)).2.readFile dO nO
        = some (FileData.pdfPages [normalizeToRGB i]) := by
  refine ⟨?_, ?_, ?_, ?_, ?_⟩
  · intro h
    rw [normalizeToRGB, if_pos h]
  · intro h1 h2
    rw [normalizeToRGB, if_neg h1, if_pos h2]
  · by_cases h1 : i.mode = "RGBA"
    · rw [normalizeToRGB, if_pos h1]; rfl
    · by_cases h2 : i.mode = "RGB"
      · rw [normalizeToRGB, if_neg h1, if_neg (by simpa using h2)]
        exact h2
      · rw [normalizeToRGB, if_neg h1, if_pos h2]; rfl
  · intro hm p hp
    by_cases h1 : i.mode = "RGBA"
    · rw [normalizeToRGB, if_pos h1] at hp
      rw [compositeOnWhite] at hp
      simp only [List.mem_map] at hp
      obtain ⟨q, _, hq⟩ := hp
      rw [← hq]
    · rw [normalizeToRGB, if_neg h1, if_pos hm] at hp
      rw [pilConvertRGB] at hp
      simp only [List.mem_map] at hp
      obtain ⟨q, _, hq⟩ := hp
      rw [← hq]
  · rw [convert_image_to_pdf, if_neg (by rw [hex]; simp)]
    exact readFile_writeFile_self _ _ _ _

/-- C9 counterexample: the grayscale-with-alpha mode LA carries an alpha
channel, but the code's normalization does not composite an LA image onto
a white background: only RGBA takes that branch, and the LA image is
plain-converted to a result that differs from the white-composited one. -/
theorem C9_counterexample :
    hasAlphaMode exImgLA.mode = true
    ∧ normalizeToRGB exImgLA = pilConvertRGB exImgLA
    ∧ normalizeToRGB exImgLA ≠ compositeOnWhite exImgLA := by
  exact ⟨by decide, by decide, by decide⟩

theorem C9_witness :
    normalizeToRGB exImgRGBA = compositeOnWhite exImgRGBA
    ∧ (normalizeToRGB exImgRGBA).mode = "RGB"
    ∧ (convert_image_to_pdf exFs1 exSd (pageName 1) ["scans"] "out.pdf"
          (some exImgRGBA)).2.readFile ["scans"] "out.pdf"
        = some (FileData.pdfPages [normalizeToRGB exImgRGBA]) := by
  have h := C9_normalization_policy exImgRGBA exFs1 exSd (pageName 1) ["scans"] "out.pdf"
    (by decide)
  exact ⟨h.1 rfl, h.2.2.1, h.2.2.2.2⟩

theorem filterMap_pagesFiles (sd : Dirp) (c : FileData) :
    ∀ k, (pagesFiles sd c k).filterMap
        (fun e => if e.dir = sd ∧ isPageName e.name = true then some e.name else none)
      = ((List.range' 1 k).map pageName).reverse := by
  intro k
  induction k with
  | zero => rfl
  | succ k ih =>
    rw [pagesFiles, List.filterMap_cons]
    rw [if_pos ⟨rfl, isPageName_pageName (k + 1)⟩]
    rw [ih, List.range'_concat, List.map_append, List.reverse_append]
    simp [Nat.add_comm 1 k]

theorem mem_pagesFiles (sd : Dirp) (c : FileData) :
    ∀ k e, e ∈ pagesFiles sd c k → ∃ i, 1 ≤ i ∧ i ≤ k ∧ e = FEntry.mk sd (pageName i) c := by
  intro k
  induction k with
  | zero => intro e he; exact absurd he (List.not_mem_nil e)
  | succ k ih =>
    intro e he
    rw [pagesFiles, List.mem_cons] at he
    rcases he with he | he
    · exact ⟨k + 1, by omega, by omega, he⟩
    · obtain ⟨i, h1, h2, h3⟩ := ih e he
      exact ⟨i, h1, by omega, h3⟩

theorem scan_page_step (bd : List Dirp) (base : List FEntry) (cfg : Config) (sid : String)
    (c : FileData) (k : Nat)
    (hdir : sessionDir cfg sid ∈ bd)
    (hbase : base.filterMap (fun e =>
        if e.dir = sessionDir cfg sid ∧ isPageName e.name = true
        then some e.name else none) = []) :
    scan_page_for_session (FS.mk bd (pagesFiles (sessionDir cfg sid) c k ++ base)) cfg sid
        (ScanRun.mk true c)
      = (PageScan.ok (k + 1) (k + 1) (pageName (k + 1)),
         FS.mk bd (pagesFiles (sessionDir cfg sid) c (k + 1) ++ base)) := by
  have hglob : ∀ j, (FS.mk bd (pagesFiles (sessionDir cfg sid) c j ++ base)).glob
      (sessionDir cfg sid) isPageName = ((List.range' 1 j).map pageName).reverse := by
    intro j
    rw [FS.glob]
    dsimp only
    rw [List.filterMap_append, filterMap_pagesFiles, hbase, List.append_nil]
  have hdirx : ¬ ((FS.mk bd (pagesFiles (sessionDir cfg sid) c k ++ base)).dirExists
      (sessionDir cfg sid) = false) := by
    rw [FS.dirExists]
    simp only [decide_eq_false_iff_not, Decidable.not_not]
    exact hdir
  rw [scan_page_for_session]
  rw [if_neg hdirx]
  dsimp only
  rw [hglob k]
  have hlen : (((List.range' 1 k).map pageName).reverse).length = k := by
    simp [List.length_range']
  rw [hlen]
  have hwrite : (FS.mk bd (pagesFiles (sessionDir cfg sid) c k ++ base)).writeFile
      (sessionDir cfg sid) (pageName (k + 1)) c
      = FS.mk bd (pagesFiles (sessionDir cfg sid) c (k + 1) ++ base) := by
    rw [FS.writeFile]
    dsimp only
    have hfilter : (pagesFiles (sessionDir cfg sid) c k ++ base).filter
        (fun e => !decide (e.dir = sessionDir cfg sid ∧ e.name = pageName (k + 1)))
        = pagesFiles (sessionDir cfg sid) c k ++ base := by
      apply List.filter_eq_self.mpr
      intro e he
      rw [List.mem_append] at he
      simp only [Bool.not_eq_true', decide_eq_false_iff_not]
      rcases he with he | he
      · obtain ⟨i, h1, h2, h3⟩ := mem_pagesFiles _ _ k e he
        intro hcon
        rw [h3] at hcon
        have : pageName i = pageName (k + 1) := hcon.2
        have := pageName_injective this
        omega
      · intro hcon
        have hnone := List.filterMap_eq_nil_iff.mp hbase e he
        rw [if_pos ⟨hcon.1, by rw [hcon.2]; exact isPageName_pageName (k + 1)⟩] at hnone
        exact Option.noConfusion hnone
    rw [hfilter]
    rw [show FEntry.mk (sessionDir cfg sid) (pageName (k + 1)) c
          :: (pagesFiles (sessionDir cfg sid) c k ++ base)
        = pagesFiles (sessionDir cfg sid) c (k + 1) ++ base from rfl]
  rw [hwrite]
  rw [if_pos (rfl : true = true)]
  have hex : (FS.mk bd (pagesFiles (sessionDir cfg sid) c (k + 1) ++ base)).fileExists
      (sessionDir cfg sid) (pageName (k + 1)) = true := by
    rw [FS.fileExists]
    dsimp only
    rw [List.any_eq_true]
    refine ⟨FEntry.mk (sessionDir cfg sid) (pageName (k + 1)) c, ?_, by simp⟩
    rw [pagesFiles]
    simp
  rw [if_neg (by rw [hex]; simp)]
  rw [hglob (k + 1)]
  rw [sortNames_length]
  simp [List.length_range']

theorem appendRun_invariant (bd : List Dirp) (base : List FEntry) (cfg : Config)
    (sid : String) (c : FileData)
    (hdir : sessionDir cfg sid ∈ bd)
    (hbase : base.filterMap (fun e =>
        if e.dir = sessionDir cfg sid ∧ isPageName e.name = true
        then some e.name else none) = []) :
    ∀ k, appendRun (FS.mk bd base) cfg sid c k
      = (FS.mk bd (pagesFiles (sessionDir cfg sid) c k ++ base),
         (List.range' 1 k).map (fun i => PageScan.ok i i (pageName i))) := by
  intro k
  induction k with
  | zero => rfl
  | succ k ih =>
    rw [appendRun]
    rw [ih]
    dsimp only
    rw [scan_page_step bd base cfg sid c k hdir hbase]
    rw [List.range'_concat, List.map_append]
    simp [Nat.add_comm 1 k]

/-- C6 (amended): starting from a session directory with no page files, `K`
sequential successful `scan_page_for_session` calls assign page indices
exactly 1 through `K` — no gaps, no duplicates — each derived as the count
of existing page files plus one and each reported with the matching running
total; the pages are written under the zero-padded names `page_{NNN}.jpg`;
and for indices in the three-digit range (up to 999) lexicographic filename
order coincides with numeric page order. -/
theorem C6_sequential_page_indices (fs : FS) (cfg : Config) (sid : String)
    (c : FileData) (K : Nat)
    (hdir : fs.dirExists (sessionDir cfg sid) = true)
    (hempty : fs.glob (sessionDir cfg sid) isPageName = []) :
    (appendRun fs cfg sid c K).2
      = (List.range' 1 K).map (fun i => PageScan.ok i i (pageName i))
    ∧ (∀ i j, 1 ≤ i → i < j → j ≤ 999 →
        lexLt (pageName i).data (pageName j).data = true) := by
  constructor
  · have hdir2 : sessionDir cfg sid ∈ fs.dirs := by
      rw [FS.dirExists, decide_eq_true_eq] at hdir
      exact hdir
    have hbase : fs.files.filterMap (fun e =>
        if e.dir = sessionDir cfg sid ∧ isPageName e.name = true
        then some e.name else none) = [] := hempty
    have h := appendRun_invariant fs.dirs fs.files cfg sid c hdir2 hbase K
    rw [show FS.mk fs.dirs fs.files = fs from rfl] at h
    rw [h]
  · intro i j h1 h2 h3
    exact pageName_lexLt i j h2 h3

theorem C6_witness :
    (appendRun exFsEmptySession exCfg "S" (FileData.bytes "jpg") 3).2
      = [PageScan.ok 1 1 (pageName 1), PageScan.ok 2 2 (pageName 2),
         PageScan.ok 3 3 (pageName 3)]
    ∧ lexLt (pageName 1).data (pageName 2).data = true := by
  have h := C6_sequential_page_indices exFsEmptySession exCfg "S" (FileData.bytes "jpg") 3
    (by decide) (by decide)
  exact ⟨h.1, h.2 1 2 (by omega) (by omega) (by omega)⟩

/-- C6 counterexample: beyond the three-digit range the claimed agreement
of lexicographic filename order with numeric page order fails — the file
name the code gives page 1000 sorts strictly before the one of page 101. -/
theorem C6_counterexample :
    101 < 1000
    ∧ lexLt (pageName 1000).data (pageName 101).data = true
    ∧ lexLt (pageName 101).data (pageName 1000).data = false := by
  exact ⟨by omega, by decide, by decide⟩

theorem isLeadOf_sessionDir_storage (cfg : Config) (sid : String) :
    isLeadOf (sessionDir cfg sid) cfg.storage = false :=
  isLeadOf_append_two_false cfg.storage "temp" ("session_" ++ sid)

theorem process_image_state (fs : FS) (iD : Dirp) (iN : String) (oD : Dirp) (oN : String)
    (run : OcrRun) (hex : fs.fileExists iD iN = true) :
    (process_image fs iD iN oD oN run).2
      = (if run.wrote = true then fs.writeFile oD oN run.output else fs) := by
  obtain ⟨status, wrote, output⟩ := run
  rw [process_image, if_neg (by rw [hex]; simp)]
  dsimp only
  cases status with
  | finished c =>
    dsimp only
    by_cases hcond : c = 0 ∧
        (if wrote = true then fs.writeFile oD oN output else fs).fileExists oD oN = true
    · rw [if_pos hcond]
    · rw [if_neg hcond]
  | timedOut => rfl
  | raised msg => rfl

theorem convert_writes (fs : FS) (iD : Dirp) (iN : String) (oD : Dirp) (oN : String)
    (img : PILImage) (hex : fs.fileExists iD iN = true) :
    (convert_image_to_pdf fs iD iN oD oN (some img)).2
      = fs.writeFile oD oN (FileData.pdfPages [normalizeToRGB img]) := by
  rw [convert_image_to_pdf, if_neg (by rw [hex]; simp)]

theorem cleanup_fileExists_ne (fs0 : FS) (d : Dirp) (tn : String) (d2 : Dirp) (n2 : String)
    (h : ¬(d2 = d ∧ n2 = tn)) :
    (if fs0.fileExists d tn = true then fs0.removeFile d tn else fs0).fileExists d2 n2
      = fs0.fileExists d2 n2 := by
  by_cases hex : fs0.fileExists d tn = true
  · rw [if_pos hex]; exact fileExists_removeFile_ne fs0 d tn d2 n2 h
  · rw [if_neg hex]

theorem make_pdf_searchable_keeps (fs : FS) (d : Dirp) (n : String) (run : OcrRun)
    (h : fs.fileExists d n = true) :
    (make_pdf_searchable fs d n run).2.fileExists d n = true := by
  have hno : ¬ (fs.fileExists d n = false) := by rw [h]; simp
  have hne : ¬ (d = d ∧ n = tempName n) := fun hc => tempName_ne n hc.2
  obtain ⟨status, wrote, output⟩ := run
  have hf1 : (if wrote = true then fs.writeFile d (tempName n) output else fs).fileExists d n
      = true := by
    cases wrote with
    | false => simpa using h
    | true =>
      rw [if_pos rfl, fileExists_writeFile_ne _ _ _ _ _ _ hne]
      exact h
  rw [make_pdf_searchable, if_neg hno]
  dsimp only
  cases status with
  | finished c =>
    dsimp only
    by_cases hcond : c = 0 ∧
        (if wrote = true then fs.writeFile d (tempName n) output else fs).fileExists d
          (tempName n) = true
    · rw [if_pos hcond]
      dsimp only
      have hsome := hcond.2
      rw [fileExists_isSome] at hsome
      obtain ⟨c', hc'⟩ := Option.isSome_iff_exists.mp hsome
      rw [FS.replaceFile, hc']
      exact fileExists_writeFile_self _ _ _ _
    · rw [if_neg hcond]
      dsimp only
      rw [cleanup_fileExists_ne _ _ _ _ _ hne]
      exact hf1
  | timedOut =>
    dsimp only
    rw [cleanup_fileExists_ne _ _ _ _ _ hne]
    exact hf1
  | raised msg =>
    dsimp only
    rw [cleanup_fileExists_ne _ _ _ _ _ hne]
    exact hf1

theorem combine_success_state (fs : FS) (paths : List Loc) (oD : Dirp) (oN : String)
    (imgs : List PILImage) (hne : paths ≠ [])
    (hall : ∀ q, q ∈ paths → fs.fileExists q.1 q.2 = true) :
    combine_images_to_pdf fs paths oD oN (some imgs)
      = (CombineResult.mk true none paths.length,
         fs.writeFile oD oN (FileData.pdfPages (imgs.map normalizeToRGB)), paths) := by
  match paths, hne with
  | a :: rest, _ =>
    cases hfind : (a :: rest).find? (fun p => !fs.fileExists p.1 p.2) with
    | some m =>
      have hm := List.mem_of_find?_eq_some hfind
      have hmex := List.find?_some hfind
      rw [Bool.not_eq_true'] at hmex
      rw [hall m hm] at hmex
      exact Bool.noConfusion hmex
    | none =>
      simp only [combine_images_to_pdf]
      rw [hfind]

/-- C1 (amended): whenever `finish_multi_page_session` returns a successful
result, the reported output location is the documented
`{storage}/multi_page_{ts}.pdf` pattern, the reported page count equals the
number of page files the session held at the call, and the session
directory no longer exists afterwards; moreover, provided the assembly step
(recognition, conversion, or combine) succeeded, the output PDF exists on
disk at that location — without that proviso the file can be missing, since
a failed assembly still yields a successful result (see the
counterexample). -/
theorem C1_finish_success (fs : FS) (cfg : Config) (sid ts : String) (env : FinishEnv)
    (fd : Dirp) (fn ft : String) (pc : Nat) (dn : Bool)
    (h : (finish_multi_page_session fs cfg sid ts env).1 = FinishResult.ok fd fn ft pc dn) :
    fd = cfg.storage
    ∧ fn = mpName ts
    ∧ pc = (fs.glob (sessionDir cfg sid) isPageName).length
    ∧ (finish_multi_page_session fs cfg sid ts env).2.dirExists (sessionDir cfg sid) = false
    ∧ (assemblySucceeds cfg env (fs.glob (sessionDir cfg sid) isPageName).length →
        (finish_multi_page_session fs cfg sid ts env).2.fileExists cfg.storage (mpName ts)
          = true) := by
  by_cases hdir : fs.dirExists (sessionDir cfg sid) = false
  · rw [finish_multi_page_session] at h
    dsimp only at h
    rw [if_pos hdir] at h
    exact absurd h (by simp)
  · rw [finish_multi_page_session] at h ⊢
    dsimp only at h ⊢
    rw [if_neg hdir] at h ⊢
    cases hp : sortNames (fs.glob (sessionDir cfg sid) isPageName) with
    | nil =>
      rw [hp] at h
      exact absurd h (by simp)
    | cons p rest =>
      rw [hp] at h
      dsimp only at h ⊢
      have hlen : (fs.glob (sessionDir cfg sid) isPageName).length = (p :: rest).length := by
        rw [← sortNames_length, hp]
      rw [FinishResult.ok.injEq] at h
      obtain ⟨h1, h2, h3, h4, h5⟩ := h
      refine ⟨h1.symm, h2.symm, by rw [← h4]; exact hlen.symm,
        dirExists_rmtree_self _ _, ?_⟩
      intro hA
      rw [fileExists_rmtree_not_under _ _ _ _ (isLeadOf_sessionDir_storage cfg sid)]
      have hpmem : fs.fileExists (sessionDir cfg sid) p = true := by
        apply fileExists_of_mem_glob fs _ isPageName p
        rw [← sortNames_mem, hp]
        exact List.mem_cons_self p rest
      rw [hlen] at hA
      cases rest with
      | nil =>
        rw [assemblySucceeds, if_pos (by simp)] at hA
        by_cases hocr : cfg.ocrEnabled = true
        · rw [if_pos hocr] at hA ⊢
          dsimp only
          rw [process_image_state _ _ _ _ _ _ hpmem, if_pos hA.1]
          exact fileExists_writeFile_self _ _ _ _
        · rw [if_neg hocr] at hA ⊢
          dsimp only
          obtain ⟨img, himg⟩ := Option.isSome_iff_exists.mp hA
          rw [himg, convert_writes _ _ _ _ _ _ hpmem]
          exact fileExists_writeFile_self _ _ _ _
      | cons q rest2 =>
        rw [assemblySucceeds, if_neg (by simp)] at hA
        obtain ⟨imgs, himgs⟩ := Option.isSome_iff_exists.mp hA
        have hall : ∀ x, x ∈ (p :: q :: rest2).map
            (fun n => (sessionDir cfg sid, n)) → fs.fileExists x.1 x.2 = true := by
          intro x hx
          rw [List.mem_map] at hx
          obtain ⟨nm, hnm, hxeq⟩ := hx
          rw [← hxeq]
          apply fileExists_of_mem_glob fs _ isPageName nm
          rw [← sortNames_mem, hp]
          exact hnm
        rw [himgs, combine_success_state _ _ _ _ _ (by simp) hall]
        dsimp only
        by_cases hocr : cfg.ocrEnabled = true
        · rw [if_pos ⟨rfl, hocr⟩]
          dsimp only
          exact make_pdf_searchable_keeps _ _ _ _ (fileExists_writeFile_self _ _ _ _)
        · rw [if_neg (fun hc => hocr hc.2)]
          dsimp only
          exact fileExists_writeFile_self _ _ _ _

/-- C1 counterexample: a finalize of a two-page session in which the
combine step fails (PIL raises) still returns a successful result carrying
the documented output path and the page count, yet no output PDF exists on
disk at that path. -/
theorem C1_counterexample :
    (finish_multi_page_session exFs2 exCfg "S" "T" exEnvCombineFail).1
      = FinishResult.ok ["scans"] (mpName "T") "PDF" 2 false
    ∧ (finish_multi_page_session exFs2 exCfg "S" "T" exEnvCombineFail).2.fileExists
        ["scans"] (mpName "T") = false := by
  exact ⟨by decide, by decide⟩

theorem C1_witness :
    (finish_multi_page_session exFs2 exCfg "S" "T" exEnvOk).2.fileExists
        ["scans"] (mpName "T") = true
    ∧ (finish_multi_page_session exFs2 exCfg "S" "T" exEnvOk).2.dirExists
        (sessionDir exCfg "S") = false := by
  have h := C1_finish_success exFs2 exCfg "S" "T" exEnvOk
    ["scans"] (mpName "T") "Searchable PDF" 2 false (by decide)
  have hl : (exFs2.glob (sessionDir exCfg "S") isPageName).length = 2 := by decide
  have hA : assemblySucceeds exCfg exEnvOk
      (exFs2.glob (sessionDir exCfg "S") isPageName).length := by
    rw [hl, assemblySucceeds]
    rw [if_neg (by omega)]
    rfl
  exact ⟨h.2.2.2.2 hA, h.2.2.2.1⟩

/-- C2 (exhibiting the race): the read-count-then-write span of
`scan_page_for_session` is not serialized — under the schedule in which
two concurrent appends to the same fresh session both read the page count
before either writes, both calls compute the same next page index 1, both
report success for `page_001.jpg`, and the session ends up with a single
page file although two appends succeeded. -/
theorem C2_concurrent_append_race :
    (raceRun exCfg "S" (FileData.bytes "jpg") [true, false, true, false]
        exFsEmptySession RacePhase.ready RacePhase.ready).2
      = (RacePhase.returned (PageScan.ok 1 1 (pageName 1)),
         RacePhase.returned (PageScan.ok 1 1 (pageName 1)))
    ∧ ((raceRun exCfg "S" (FileData.bytes "jpg") [true, false, true, false]
        exFsEmptySession RacePhase.ready RacePhase.ready).1.glob exSd isPageName).length
      = 1 := by
  exact ⟨by decide, by decide⟩

/-- C3 (exhibiting the divergence): on a one-page session with OCR enabled
and recognition failing, `finish_multi_page_session` performs no fallback
conversion: it reports success with file type "PDF (OCR failed)" while no
document exists at the output path — whereas `scan_single_page` under the
same failing recognition outcome and the same conversion outcome falls
back to plain conversion and does produce its output document.  The
one-page finalize is therefore not identical to the single-page policy. -/
theorem C3_one_page_finalize_no_fallback :
    (finish_multi_page_session exFs1 exCfg "S" "T" exEnvOcrFail).1
      = FinishResult.ok ["scans"] (mpName "T") "PDF (OCR failed)" 1 false
    ∧ (finish_multi_page_session exFs1 exCfg "S" "T" exEnvOcrFail).2.fileExists
        ["scans"] (mpName "T") = false
    ∧ (scan_single_page exFsNoSession exCfg "T" exScanOk exOcrFail (some exImg) false).1
      = CaptureResult.ok ["scans"] (scanPdfName "T") "PDF (OCR failed)" false
    ∧ (scan_single_page exFsNoSession exCfg "T" exScanOk exOcrFail (some exImg)
        false).2.fileExists ["scans"] (scanPdfName "T") = true := by
  exact ⟨by decide, by decide, by decide, by decide⟩

/-- C4 (exhibiting the divergence): in the one-page finalize workflow a
recognition failure leaves no output file at all: the capture reports a
degraded file type yet the promised plain PDF is missing from disk, so a
recognition failure can indeed result in a missing output file. -/
theorem C4_recognition_failure_missing_output :
    (finish_multi_page_session exFs1 exCfg "S" "U" exEnvOcrFail).1
      = FinishResult.ok ["scans"] (mpName "U") "PDF (OCR failed)" 1 false
    ∧ (finish_multi_page_session exFs1 exCfg "S" "U" exEnvOcrFail).2.fileExists
        ["scans"] (mpName "U") = false := by
  exact ⟨by decide, by decide⟩

end ScannerServer
